import Mathlib

/-!
Shallow embedding of `src/src/gattclient.cpp` (the MyoLinux GATT client
driver).  The transport (`Bled112Client`) is an external collaborator: it is
modelled as a script, a list of decoded incoming messages consumed by reads,
while the commands written by the driver are collected in a trace.  Machine
integers (`uint8_t`, `uint16_t`) are modelled as `Nat`, with an explicit
`% 256` where the code truncates (`static_cast<std::uint8_t>`); `rssi`
(`int8_t`) is modelled as `Int`.  C++ exceptions are modelled as `Except`:
when an operation propagates an error, the member state mutated up to that
point is returned alongside the error, exactly as the C++ object would keep
its already-assigned fields.
-/

namespace myolinux

/-- A `Buffer` (`std::vector<std::uint8_t>` in the source) is a byte list. -/
abbrev Buffer := List Nat

/-- Error taxonomy.  `format` is the `std::runtime_error` thrown by
`GattClient::connect(const std::string &)` ("Unexpected delimiter"),
`protocol` the length-mismatch `std::runtime_error`s of `readAttribute` and
`characteristics`, `state` the `std::logic_error` of `GattClient::address`,
and `transport` any failure surfaced by the external transport layer. -/
inductive Err where
  | format
  | state
  | protocol
  | transport
deriving DecidableEq

/-- Decoded incoming messages delivered by the transport.  Each constructor
stands for one of the BGAPI message types the driver reads; only the fields
the driver inspects are carried.  The `connected` field of `statusEvent`
models the truth value of `status.flags & ConnectionConnstatusEnum::Connected`,
the only bit of `flags` the code looks at. -/
inductive Msg where
  | getStatusResp
  | statusEvent (connected : Bool) (addr : Buffer)
  | connectResp (handle : Nat)
  | disconnectResp
  | disconnectedEvent
  | attrValueEvent (atthandle : Nat) (length : Nat) (payload : Buffer)
  | writeResp
  | procCompleted
  | readByHandleResp
  | endProcResp
  | findInfoResp
  | infoFound (chrhandle : Nat) (length : Nat) (uuid : Buffer)
  | scanResp (rssi : Int) (sender : Buffer) (data : Buffer)
  | discoverResp
deriving DecidableEq

/-- Commands written to the transport by the driver. -/
inductive Cmd where
  | connectionGetStatus (conn : Nat)
  | gapConnectDirect (addr : Buffer)
  | connectionDisconnect (conn : Nat)
  | attclientAttributeWrite (conn : Nat) (atthandle : Nat) (length : Nat) (payload : Buffer)
  | attclientReadByHandle (conn : Nat) (atthandle : Nat)
  | gapDiscover
  | gapEndProcedure
  | attclientFindInformation (conn : Nat) (start : Nat) (stop : Nat)
deriving DecidableEq

/-- The mutable member state of `GattClient` (`connection`, `connected_`,
`address_`, `event_queue` in `gattclient.h`); an `Event` of the queue is the
`std::tuple<std::uint16_t, Buffer>` of handle and payload. -/
structure GattClient where
  connection : Nat
  connected_ : Bool
  address_ : Buffer
  event_queue : List (Nat × Buffer)
deriving DecidableEq

/-- Result of one driver operation: the returned value or propagated error,
the unconsumed remainder of the transport script, the member state as left by
the operation (also on error, like a C++ object after an exception escapes),
and the trace of commands written. -/
structure OpRes (α : Type) where
  res : Except Err α
  script : List Msg
  st : GattClient
  trace : List Cmd

def matchGetStatusResp : Msg → Option Unit
  | .getStatusResp => some ()
  | _ => none

def matchStatusEvent : Msg → Option (Bool × Buffer)
  | .statusEvent c a => some (c, a)
  | _ => none

def matchConnectResp : Msg → Option Nat
  | .connectResp h => some h
  | _ => none

def matchDisconnectResp : Msg → Option Unit
  | .disconnectResp => some ()
  | _ => none

def matchDisconnectedEvent : Msg → Option Unit
  | .disconnectedEvent => some ()
  | _ => none

def matchWriteResp : Msg → Option Unit
  | .writeResp => some ()
  | _ => none

def matchProcCompleted : Msg → Option Unit
  | .procCompleted => some ()
  | _ => none

def matchReadByHandleResp : Msg → Option Unit
  | .readByHandleResp => some ()
  | _ => none

def matchEndProcResp : Msg → Option Unit
  | .endProcResp => some ()
  | _ => none

def matchFindInfoResp : Msg → Option Unit
  | .findInfoResp => some ()
  | _ => none

/-- Modelled from the spec: `GattClient::readResponse<T>` is declared in
`gattclient.h`, which is not under `src/`; only its callers are.  The comment
at `gattclient.cpp` lines 181-182 ("The events get ofloaded to the queue when
reading the read or write request response, because the stream might have
contained the events unrelated to the request") and spec sections 3 and 5
("EventBuffer ... grows during read operations that detect mismatched
events") describe it: it reads messages until one of the awaited type `T`
arrives, appending every `AttclientAttributeValueEvent` seen on the way to
`event_queue`.  A message of any other unexpected type is the transport's
concern (spec section 6) and is modelled as a transport error, as is an
exhausted script (a transport read failure). -/
def readResponse {α : Type} (m : Msg → Option α) :
    List Msg → GattClient → Except Err α × List Msg × GattClient
  | [], s => (.error .transport, [], s)
  | .attrValueEvent h _l p :: rest, s =>
    readResponse m rest { s with event_queue := s.event_queue ++ [(h, p)] }
  | msg :: rest, s =>
    match m msg with
    | some a => (.ok a, rest, s)
    | none => (.error .transport, rest, s)

/-- The single-typed `client.read<T>()` of the transport contract (spec
section 6): blocks for the next decoded message and returns it when it has
the awaited type; anything else is modelled as a transport error. -/
def readSingle {α : Type} (m : Msg → Option α) :
    List Msg → GattClient → Except Err α × List Msg × GattClient
  | [], s => (.error .transport, [], s)
  | msg :: rest, s =>
    match m msg with
    | some a => (.ok a, rest, s)
    | none => (.error .transport, rest, s)

/-- The slot-revival loop of `GattClient::connect(const Address &)`, lines
70-80: `for (uint8_t i = 0; i < 3; i++)` is modelled as a walk over the slot
list `[0, 1, 2]`.  Per slot it writes `ConnectionGetStatus{i}`, awaits the
response and the `ConnectionStatusEvent`, and if the slot reports `Connected`
with the requested address it sets `connection = i` and stops with `true`
("revived"); after all slots it yields `false`. -/
def connectLoop (address : Buffer) : List Nat → List Msg → GattClient → OpRes Bool
  | [], script, s => ⟨.ok false, script, s, []⟩
  | i :: is, script, s =>
    match readResponse matchGetStatusResp script s with
    | (.error e, script1, s1) => ⟨.error e, script1, s1, [.connectionGetStatus i]⟩
    | (.ok _, script1, s1) =>
      match readResponse matchStatusEvent script1 s1 with
      | (.error e, script2, s2) => ⟨.error e, script2, s2, [.connectionGetStatus i]⟩
      | (.ok status, script2, s2) =>
        if status.1 ∧ status.2 = address then
          ⟨.ok true, script2, { s2 with connection := i }, [.connectionGetStatus i]⟩
        else
          let r := connectLoop address is script2 s2
          ⟨r.res, r.script, r.st, .connectionGetStatus i :: r.trace⟩

/-- `GattClient::connect(const Address &)`, lines 63-92.  After the revival
loop, the fresh-connect path writes `GapConnectDirect`, awaits its response
and assigns `connection = response.connection_handle` (line 87) before
awaiting the `ConnectionStatusEvent` (line 89); only then are `connected_`
and `address_` set. -/
def GattClient.connect (address : Buffer) (script : List Msg) (s : GattClient) : OpRes Unit :=
  match connectLoop address [0, 1, 2] script s with
  | ⟨.error e, script1, s1, tr⟩ => ⟨.error e, script1, s1, tr⟩
  | ⟨.ok true, script1, s1, tr⟩ => ⟨.ok (), script1, s1, tr⟩
  | ⟨.ok false, script1, s1, tr⟩ =>
    match readResponse matchConnectResp script1 s1 with
    | (.error e, script2, s2) => ⟨.error e, script2, s2, tr ++ [.gapConnectDirect address]⟩
    | (.ok handle, script2, s2) =>
      match readResponse matchStatusEvent script2 { s2 with connection := handle } with
      | (.error e, script3, s3) => ⟨.error e, script3, s3, tr ++ [.gapConnectDirect address]⟩
      | (.ok _, script3, s3) =>
        ⟨.ok (), script3, { s3 with connected_ := true, address_ := address },
          tr ++ [.gapConnectDirect address]⟩

/-- `GattClient::connected`, lines 115-118. -/
def GattClient.connected (s : GattClient) : Bool :=
  s.connected_

/-- `GattClient::address`, lines 120-127: throws `std::logic_error` when not
connected, otherwise returns the stored peer address. -/
def GattClient.address (s : GattClient) : Except Err Buffer :=
  if !s.connected_ then .error .state else .ok s.address_

/-- `GattClient::disconnect(const std::uint8_t)`, lines 129-138: writes the
disconnect command, awaits its response unconditionally, and only when
`connected_ && this->connection == connection` also awaits the
`ConnectionDisconnectedEvent` and clears `connected_`. -/
def GattClient.disconnect (conn : Nat) (script : List Msg) (s : GattClient) : OpRes Unit :=
  match readResponse matchDisconnectResp script s with
  | (.error e, script1, s1) => ⟨.error e, script1, s1, [.connectionDisconnect conn]⟩
  | (.ok _, script1, s1) =>
    if s1.connected_ ∧ s1.connection = conn then
      match readResponse matchDisconnectedEvent script1 s1 with
      | (.error e, script2, s2) => ⟨.error e, script2, s2, [.connectionDisconnect conn]⟩
      | (.ok _, script2, s2) =>
        ⟨.ok (), script2, { s2 with connected_ := false }, [.connectionDisconnect conn]⟩
    else ⟨.ok (), script1, s1, [.connectionDisconnect conn]⟩

/-- `GattClient::disconnect()`, lines 140-143: disconnects the active slot. -/
def GattClient.disconnectCurrent (script : List Msg) (s : GattClient) : OpRes Unit :=
  GattClient.disconnect s.connection script s

/-- The `for (uint8_t i = 0; i < 3; i++)` loop of `disconnectAll`, modelled
as a walk over `[0, 1, 2]`; an exception escaping one call stops the rest. -/
def disconnectAllLoop : List Nat → List Msg → GattClient → OpRes Unit
  | [], script, s => ⟨.ok (), script, s, []⟩
  | i :: is, script, s =>
    match GattClient.disconnect i script s with
    | ⟨.error e, script1, s1, tr⟩ => ⟨.error e, script1, s1, tr⟩
    | ⟨.ok _, script1, s1, tr⟩ =>
      let r := disconnectAllLoop is script1 s1
      ⟨r.res, r.script, r.st, tr ++ r.trace⟩

/-- `GattClient::disconnectAll`, lines 145-150. -/
def GattClient.disconnectAll (script : List Msg) (s : GattClient) : OpRes Unit :=
  disconnectAllLoop [0, 1, 2] script s

/-- `GattClient::writeAttribute`, lines 152-157: writes the attribute-write
command (whose length field is `static_cast<uint8_t>(payload.size())`), then
awaits the write response and the procedure-completed event. -/
def GattClient.writeAttribute (atthandle : Nat) (payload : Buffer) (script : List Msg)
    (s : GattClient) : OpRes Unit :=
  match readResponse matchWriteResp script s with
  | (.error e, script1, s1) =>
    ⟨.error e, script1, s1, [.attclientAttributeWrite s.connection atthandle (payload.length % 256) payload]⟩
  | (.ok _, script1, s1) =>
    match readResponse matchProcCompleted script1 s1 with
    | (.error e, script2, s2) =>
      ⟨.error e, script2, s2, [.attclientAttributeWrite s.connection atthandle (payload.length % 256) payload]⟩
    | (.ok _, script2, s2) =>
      ⟨.ok (), script2, s2, [.attclientAttributeWrite s.connection atthandle (payload.length % 256) payload]⟩

/-- The `retry:` loop of `readAttribute`, lines 164-176: reads an
`AttclientAttributeValueEvent`; a mismatched handle is appended to
`event_queue` (handle and payload) and the read retried; on the matching
handle, a declared length differing from the payload size throws, otherwise
the payload is returned. -/
def readAttrLoop (atthandle : Nat) : List Msg → GattClient → Except Err Buffer × List Msg × GattClient
  | [], s => (.error .transport, [], s)
  | .attrValueEvent h len p :: rest, s =>
    if h ≠ atthandle then
      readAttrLoop atthandle rest { s with event_queue := s.event_queue ++ [(h, p)] }
    else if len ≠ p.length then (.error .protocol, rest, s)
    else (.ok p, rest, s)
  | _ :: rest, s => (.error .transport, rest, s)

/-- `GattClient::readAttribute`, lines 159-177. -/
def GattClient.readAttribute (atthandle : Nat) (script : List Msg) (s : GattClient) : OpRes Buffer :=
  match readResponse matchReadByHandleResp script s with
  | (.error e, script1, s1) => ⟨.error e, script1, s1, [.attclientReadByHandle s.connection atthandle]⟩
  | (.ok _, script1, s1) =>
    match readAttrLoop atthandle script1 s1 with
    | (.error e, script2, s2) => ⟨.error e, script2, s2, [.attclientReadByHandle s.connection atthandle]⟩
    | (.ok d, script2, s2) => ⟨.ok d, script2, s2, [.attclientReadByHandle s.connection atthandle]⟩

/-- Result of `listen`: `delivered` is the sequence of `(handle, payload)`
arguments passed to the caller's callback, in call order. -/
structure ListenRes where
  res : Except Err Unit
  script : List Msg
  st : GattClient
  delivered : List (Nat × Buffer)

/-- `GattClient::listen`, lines 179-191: first hands every queued event to
the callback in queue order and clears the queue (before the blocking read),
then performs one single-handler `client.read` for the next attribute-value
event and delivers it too. -/
def GattClient.listen (script : List Msg) (s : GattClient) : ListenRes :=
  let buffered := s.event_queue
  let s1 : GattClient := { s with event_queue := [] }
  match script with
  | .attrValueEvent h _l p :: rest => ⟨.ok (), rest, s1, buffered ++ [(h, p)]⟩
  | [] => ⟨.error .transport, [], s1, buffered⟩
  | _ :: rest => ⟨.error .transport, rest, s1, buffered⟩

/-- `GattClient::Characteristics` (`std::map<Buffer, std::uint16_t>`),
modelled as an association list whose insert overwrites in place. -/
abbrev Characteristics := List (Buffer × Nat)

/-- `chr[uuid] = handle` on a `std::map`: overwrite the existing key or
append a fresh entry. -/
def mapInsert : Characteristics → Buffer → Nat → Characteristics
  | [], k, v => [(k, v)]
  | (k1, v1) :: rest, k, v =>
    if k1 = k then (k, v) :: rest else (k1, v1) :: mapInsert rest k v

/-- `std::map` lookup of a key. -/
def mapLookup : Characteristics → Buffer → Option Nat
  | [], _ => none
  | (k1, v1) :: rest, k => if k1 = k then some v1 else mapLookup rest k

/-- One `chr[uuid] = handle` step for an information-found event given as a
`(handle, declared length, uuid)` triple. -/
def insertInfo (m : Characteristics) (e : Nat × Nat × Buffer) : Characteristics :=
  mapInsert m e.2.2 e.1

/-- The event loop of `characteristics`, lines 200-217: a two-handler
`client.read` dispatching information-found events (validate the declared
UUID length, then insert) and the procedure-completed event (stop and return
the accumulated map). -/
def chrLoop : List Msg → GattClient → Characteristics → Except Err Characteristics × List Msg × GattClient
  | [], s, _ => (.error .transport, [], s)
  | .infoFound h len uuid :: rest, s, chr =>
    if len ≠ uuid.length then (.error .protocol, rest, s)
    else chrLoop rest s (mapInsert chr uuid h)
  | .procCompleted :: rest, s, chr => (.ok chr, rest, s)
  | _ :: rest, s, _ => (.error .transport, rest, s)

/-- `GattClient::characteristics`, lines 193-220: writes
`AttclientFindInformation{connection, 0x0001, 0xFFFF}`, awaits its response
with a single-typed read (line 198), then runs the event loop. -/
def GattClient.characteristics (script : List Msg) (s : GattClient) : OpRes Characteristics :=
  match readSingle matchFindInfoResp script s with
  | (.error e, script1, s1) => ⟨.error e, script1, s1, [.attclientFindInformation s.connection 1 65535]⟩
  | (.ok _, script1, s1) =>
    match chrLoop script1 s1 [] with
    | (.error e, script2, s2) => ⟨.error e, script2, s2, [.attclientFindInformation s.connection 1 65535]⟩
    | (.ok chr, script2, s2) => ⟨.ok chr, script2, s2, [.attclientFindInformation s.connection 1 65535]⟩

/-- Result of `discover`: `delivered` is the list of
`(rssi, address, data)` triples passed to the caller's callback, in order. -/
structure DiscoverRes where
  res : Except Err Unit
  script : List Msg
  st : GattClient
  trace : List Cmd
  delivered : List (Int × Buffer × Buffer)

/-- The `while (running)` loop of `discover`, lines 39-55: a two-handler
`client.read` dispatching `GapDiscoverResponse` (a no-op handler, the loop
continues) and scan-response events, which are handed to the callback;
`running` is cleared when the callback returns false. -/
def discoverLoop (cb : Int → Buffer → Buffer → Bool) :
    List Msg → GattClient → Except Err Unit × List Msg × GattClient × List (Int × Buffer × Buffer)
  | [], s => (.error .transport, [], s, [])
  | .discoverResp :: rest, s => discoverLoop cb rest s
  | .scanResp rssi sender data :: rest, s =>
    if cb rssi sender data then
      let r := discoverLoop cb rest s
      (r.1, r.2.1, r.2.2.1, (rssi, sender, data) :: r.2.2.2)
    else
      (.ok (), rest, s, [(rssi, sender, data)])
  | _ :: rest, s => (.error .transport, rest, s, [])

/-- `GattClient::discover`, lines 35-59: writes `GapDiscover`, runs the event
loop until the callback declines, then writes `GapEndProcedure` and awaits
its response with a single-typed read. -/
def GattClient.discover (cb : Int → Buffer → Buffer → Bool) (script : List Msg)
    (s : GattClient) : DiscoverRes :=
  match discoverLoop cb script s with
  | (.error e, script1, s1, delivered) => ⟨.error e, script1, s1, [.gapDiscover], delivered⟩
  | (.ok _, script1, s1, delivered) =>
    match readSingle matchEndProcResp script1 s1 with
    | (.error e, script2, s2) => ⟨.error e, script2, s2, [.gapDiscover, .gapEndProcedure], delivered⟩
    | (.ok _, script2, s2) => ⟨.ok (), script2, s2, [.gapDiscover, .gapEndProcedure], delivered⟩

/-- Whitespace for `std::istream` extraction with `skipws` (the default). -/
def isWs (c : Char) : Bool :=
  c = ' ' || c = '\t' || c = '\n' || c = '\r'

/-- The value of a hexadecimal digit character, as `operator>>` with
`std::hex` accepts them. -/
def hexVal (c : Char) : Option Nat :=
  if '0' ≤ c ∧ c ≤ '9' then some (c.toNat - 48)
  else if 'a' ≤ c ∧ c ≤ 'f' then some (c.toNat - 87)
  else if 'A' ≤ c ∧ c ≤ 'F' then some (c.toNat - 55)
  else none

/-- Lowercase hexadecimal digit character for `n < 16`, as `std::hex`
formatting emits them. -/
def hexChar (n : Nat) : Char :=
  if n < 10 then Char.ofNat (48 + n) else Char.ofNat (87 + n)

/-- One byte as printed by `std::cout << std::hex << std::setw(2) << b` for
`b < 256`: `setw(2)` with the default fill pads a single-digit value with a
leading space (there is no `setfill` call in `print_address`). -/
def formatByte (b : Nat) : List Char :=
  if b < 16 then [' ', hexChar b] else [hexChar (b / 16), hexChar (b % 16)]

/-- `print_address`, lines 14-27: prints `address[i]` for `i` from `size-1`
down to `0` (most-significant byte of the storage order first), with a `:`
between consecutive groups (`if (i != 0)`).  The trailing `std::endl` is not
part of the formatted address text. -/
def print_address (a : Buffer) : List Char :=
  List.intercalate [':'] (a.reverse.map formatByte)

/-- Greedy run of hexadecimal digits with accumulator, as `operator>>` with
`std::hex` consumes them after the first digit. -/
def readHexDigits : List Char → Nat → Nat × List Char
  | [], acc => (acc, [])
  | c :: cs, acc =>
    match hexVal c with
    | some d => readHexDigits cs (16 * acc + d)
    | none => (acc, c :: cs)

/-- `ss >> std::hex >> value`: skip whitespace, then consume a nonempty
greedy run of hex digits; no digit at all is an extraction failure. -/
def readHexNat (cs : List Char) : Option (Nat × List Char) :=
  match cs.dropWhile isWs with
  | [] => none
  | c :: cs1 =>
    match hexVal c with
    | some d => some (readHexDigits cs1 d)
    | none => none

/-- `ss >> delimiter` for a `char`: skip whitespace, then take one
character; end of input is an extraction failure. -/
def readCharTok (cs : List Char) : Option (Char × List Char) :=
  match cs.dropWhile isWs with
  | [] => none
  | c :: cs1 => some (c, cs1)

/-- The parsing loop of `GattClient::connect(const std::string &)`, lines
100-110: six iterations, each extracting a hex value (stored truncated to
`uint8_t`, into `address[i]` for `i` from 5 down to 0, so in reverse storage
order) and then a delimiter character that must be `:`.  A failed extraction
is modelled as the format error: in the source a failed delimiter extraction
leaves `delimiter` uninitialized and the `!= ':'` check rejects it
(practically throwing "Unexpected delimiter"), and a failed hex extraction
puts the stream in a failed state so that the following delimiter extraction
fails the same way.  The list returned is in extraction order, i.e. reverse
storage order. -/
def parseLoop : Nat → List Char → Except Err (List Nat)
  | 0, _ => .ok []
  | n + 1, cs =>
    match readHexNat cs with
    | none => .error .format
    | some vr =>
      match readCharTok vr.2 with
      | none => .error .format
      | some dr =>
        if dr.1 ≠ ':' then .error .format
        else
          match parseLoop n dr.2 with
          | .error e => .error e
          | .ok rest => .ok (vr.1 % 256 :: rest)

/-- The address-parsing portion of `GattClient::connect(const std::string &)`,
lines 94-113: run the six-group loop and reverse the extraction order back to
storage order. -/
def connectParseAddress (cs : List Char) : Except Err Buffer :=
  match parseLoop 6 cs with
  | .error e => .error e
  | .ok l => .ok l.reverse

/-- `GattClient::connect(const std::string &)` in full: parse, then connect
to the parsed address. -/
def GattClient.connectString (cs : List Char) (script : List Msg) (s : GattClient) : OpRes Unit :=
  match connectParseAddress cs with
  | .error e => ⟨.error e, script, s, []⟩
  | .ok address => GattClient.connect address script s

/-- Transport script presenting the three slot statuses queried by the
revival loop of `connect`, followed by arbitrary further traffic. -/
def revivalScript (c0 c1 c2 : Bool) (a0 a1 a2 : Buffer) (rest : List Msg) : List Msg :=
  .getStatusResp :: .statusEvent c0 a0 :: .getStatusResp :: .statusEvent c1 a1 ::
    .getStatusResp :: .statusEvent c2 a2 :: rest

/-- An attribute-value event message from its
`(handle, declared length, payload)` triple. -/
def mkAttrEvent (e : Nat × Nat × Buffer) : Msg :=
  .attrValueEvent e.1 e.2.1 e.2.2

/-- An information-found event message from its
`(handle, declared length, uuid)` triple. -/
def mkInfoFound (e : Nat × Nat × Buffer) : Msg :=
  .infoFound e.1 e.2.1 e.2.2

/-- Transport script for one `characteristics` call: the find-information
response, the information-found events, the procedure-completed event, then
arbitrary further traffic. -/
def chrScript (events : List (Nat × Nat × Buffer)) (rest : List Msg) : List Msg :=
  .findInfoResp :: events.map mkInfoFound ++ .procCompleted :: rest

/-- Transport messages consumed by `disconnect(i)` starting from state `s`:
the disconnect response, plus the disconnected event exactly when `i` is the
active connected slot. -/
def dcScript (s : GattClient) (i : Nat) : List Msg :=
  if s.connected_ ∧ s.connection = i then [.disconnectResp, .disconnectedEvent]
  else [.disconnectResp]

/-- Transport script for a whole `disconnectAll` call from state `s`. -/
def disconnectAllScript (s : GattClient) : List Msg :=
  dcScript s 0 ++ dcScript s 1 ++ dcScript s 2

/-- The `readResponse` helper never touches `connection`, `connected_` or
`address_`, and only appends to `event_queue`. -/
theorem readResponse_frame {α : Type} (m : Msg → Option α) (script : List Msg) :
    ∀ s : GattClient,
      (readResponse m script s).2.2.connection = s.connection ∧
      (readResponse m script s).2.2.connected_ = s.connected_ ∧
      (readResponse m script s).2.2.address_ = s.address_ ∧
      ∃ l, (readResponse m script s).2.2.event_queue = s.event_queue ++ l := by
  induction script with
  | nil => intro s; simp [readResponse]
  | cons msg rest ih =>
    intro s
    cases msg with
    | attrValueEvent h len p =>
      obtain ⟨h1, h2, h3, l, h4⟩ := ih { s with event_queue := s.event_queue ++ [(h, p)] }
      refine ⟨?_, ?_, ?_, (h, p) :: l, ?_⟩ <;>
        simp [readResponse, h1, h2, h3, h4]
    | getStatusResp => cases hm : m .getStatusResp <;> simp [readResponse, hm]
    | statusEvent c a => cases hm : m (.statusEvent c a) <;> simp [readResponse, hm]
    | connectResp h => cases hm : m (.connectResp h) <;> simp [readResponse, hm]
    | disconnectResp => cases hm : m .disconnectResp <;> simp [readResponse, hm]
    | disconnectedEvent => cases hm : m .disconnectedEvent <;> simp [readResponse, hm]
    | writeResp => cases hm : m .writeResp <;> simp [readResponse, hm]
    | procCompleted => cases hm : m .procCompleted <;> simp [readResponse, hm]
    | readByHandleResp => cases hm : m .readByHandleResp <;> simp [readResponse, hm]
    | endProcResp => cases hm : m .endProcResp <;> simp [readResponse, hm]
    | findInfoResp => cases hm : m .findInfoResp <;> simp [readResponse, hm]
    | infoFound h len u => cases hm : m (.infoFound h len u) <;> simp [readResponse, hm]
    | scanResp r a d => cases hm : m (.scanResp r a d) <;> simp [readResponse, hm]
    | discoverResp => cases hm : m .discoverResp <;> simp [readResponse, hm]

/-- Claim C8: whenever the driver is not in the connected state, `address`
fails with the state error and returns no address; whenever it is connected,
`address` returns the stored peer address — the peer address is observable
only while `connected` is true. -/
theorem c8_address_only_when_connected (s : GattClient) :
    (GattClient.connected s = false → GattClient.address s = Except.error Err.state) ∧
    (GattClient.connected s = true → GattClient.address s = Except.ok s.address_) := by
  constructor <;> intro h <;>
    simp only [GattClient.connected] at h <;>
    simp [GattClient.address, h]

/-- Witness for C8 at two concrete states, one disconnected and one
connected. -/
theorem c8_address_only_when_connected_witness :
    GattClient.address ⟨0, false, [], []⟩ = Except.error Err.state ∧
    GattClient.address ⟨1, true, [18, 52], []⟩ = Except.ok [18, 52] :=
  ⟨(c8_address_only_when_connected ⟨0, false, [], []⟩).1 rfl,
   (c8_address_only_when_connected ⟨1, true, [18, 52], []⟩).2 rfl⟩

/-- Claim C1: the round-trip `parse(format(a)) == a` fails on the code.  At
the concrete valid address `[0x66, 0x55, 0x44, 0x33, 0x22, 0x11]` (formatted
as "11:22:33:44:55:66"), parsing the formatted text raises the delimiter
error: the parse loop of `connect(const std::string &)` demands a `:` after
the sixth hex group, while `print_address` emits only five separators, so the
sixth delimiter extraction fails at end of input. -/
theorem c1_parse_format_fails :
    connectParseAddress (print_address [102, 85, 68, 51, 34, 17]) = Except.error Err.format := by
  rfl

/-- Claim C1, intent check: the same address round-trips as soon as the text
carries the sixth separator the parse loop demands, confirming that the stray
requirement on a trailing delimiter is what breaks the round-trip law. -/
theorem c1_parse_format_with_trailing_colon :
    connectParseAddress (print_address [102, 85, 68, 51, 34, 17] ++ [':']) =
      Except.ok [102, 85, 68, 51, 34, 17] := by
  rfl

/-- Full characterization of a successful slot-revival `connect`: when some
slot status matches, the result adopts the first matching slot, writes only
the status-query commands up to it, and changes no other state. -/
theorem connect_revival_eq (address : Buffer) (s : GattClient)
    (c0 c1 c2 : Bool) (a0 a1 a2 : Buffer) (rest : List Msg)
    (h : (c0 = true ∧ a0 = address) ∨ (c1 = true ∧ a1 = address) ∨ (c2 = true ∧ a2 = address)) :
    GattClient.connect address (revivalScript c0 c1 c2 a0 a1 a2 rest) s =
      if c0 = true ∧ a0 = address then
        ⟨.ok (), .getStatusResp :: .statusEvent c1 a1 :: .getStatusResp :: .statusEvent c2 a2 :: rest,
          { s with connection := 0 }, [.connectionGetStatus 0]⟩
      else if c1 = true ∧ a1 = address then
        ⟨.ok (), .getStatusResp :: .statusEvent c2 a2 :: rest, { s with connection := 1 },
          [.connectionGetStatus 0, .connectionGetStatus 1]⟩
      else
        ⟨.ok (), rest, { s with connection := 2 },
          [.connectionGetStatus 0, .connectionGetStatus 1, .connectionGetStatus 2]⟩ := by
  by_cases h0 : c0 = true ∧ a0 = address
  · obtain ⟨hc0, ha0⟩ := h0
    subst hc0; subst ha0
    simp [GattClient.connect, connectLoop, revivalScript, readResponse,
      matchGetStatusResp, matchStatusEvent]
  · by_cases h1 : c1 = true ∧ a1 = address
    · obtain ⟨hc1, ha1⟩ := h1
      subst hc1; subst ha1
      simp [GattClient.connect, connectLoop, revivalScript, readResponse,
        matchGetStatusResp, matchStatusEvent, h0]
    · rcases h with h | h | h
      · exact absurd h h0
      · exact absurd h h1
      · obtain ⟨hc2, ha2⟩ := h
        subst hc2; subst ha2
        simp [GattClient.connect, connectLoop, revivalScript, readResponse,
          matchGetStatusResp, matchStatusEvent, h0, h1]



/-- Claim C3: if one of the three connection slots reports Connected with a
peer address equal to the requested address, `connect` adopts (the first)
such slot as the active slot and returns ok without ever writing a
`GapConnectDirect` command. -/
theorem c3_revival_adopts_slot (address : Buffer) (s : GattClient)
    (c0 c1 c2 : Bool) (a0 a1 a2 : Buffer) (rest : List Msg)
    (h : (c0 = true ∧ a0 = address) ∨ (c1 = true ∧ a1 = address) ∨ (c2 = true ∧ a2 = address)) :
    (GattClient.connect address (revivalScript c0 c1 c2 a0 a1 a2 rest) s).res = Except.ok () ∧
    (∀ b, Cmd.gapConnectDirect b ∉ (GattClient.connect address (revivalScript c0 c1 c2 a0 a1 a2 rest) s).trace) ∧
    (GattClient.connect address (revivalScript c0 c1 c2 a0 a1 a2 rest) s).st.connection =
      (if c0 = true ∧ a0 = address then 0 else if c1 = true ∧ a1 = address then 1 else 2) := by
  rw [connect_revival_eq address s c0 c1 c2 a0 a1 a2 rest h]
  split_ifs <;> simp

/-- Witness for C3: slot 1 reports Connected with the requested address; the
call succeeds, writes no direct-connect command and adopts slot 1. -/
theorem c3_revival_adopts_slot_witness :
    (GattClient.connect [1, 2, 3, 4, 5, 6]
      (revivalScript false true false [9] [1, 2, 3, 4, 5, 6] [] []) ⟨0, false, [], []⟩).res = Except.ok () ∧
    Cmd.gapConnectDirect [1, 2, 3, 4, 5, 6] ∉
      (GattClient.connect [1, 2, 3, 4, 5, 6]
        (revivalScript false true false [9] [1, 2, 3, 4, 5, 6] [] []) ⟨0, false, [], []⟩).trace ∧
    (GattClient.connect [1, 2, 3, 4, 5, 6]
      (revivalScript false true false [9] [1, 2, 3, 4, 5, 6] [] []) ⟨0, false, [], []⟩).st.connection = 1 := by
  have h := c3_revival_adopts_slot [1, 2, 3, 4, 5, 6] ⟨0, false, [], []⟩
    false true false [9] [1, 2, 3, 4, 5, 6] [] [] (Or.inr (Or.inl ⟨rfl, rfl⟩))
  exact ⟨h.1, h.2.1 [1, 2, 3, 4, 5, 6], by simpa using h.2.2⟩

/-- Claim C10: a successful slot-revival `connect` leaves `connected_` and
`address_` unchanged; in particular, from a disconnected initial state,
`connected()` still returns false and `address()` still raises after the
revival. -/
theorem c10_revival_frame (address : Buffer) (s : GattClient)
    (c0 c1 c2 : Bool) (a0 a1 a2 : Buffer) (rest : List Msg)
    (h : (c0 = true ∧ a0 = address) ∨ (c1 = true ∧ a1 = address) ∨ (c2 = true ∧ a2 = address)) :
    (GattClient.connect address (revivalScript c0 c1 c2 a0 a1 a2 rest) s).st.connected_ = s.connected_ ∧
    (GattClient.connect address (revivalScript c0 c1 c2 a0 a1 a2 rest) s).st.address_ = s.address_ ∧
    (s.connected_ = false →
      GattClient.connected (GattClient.connect address (revivalScript c0 c1 c2 a0 a1 a2 rest) s).st = false ∧
      GattClient.address (GattClient.connect address (revivalScript c0 c1 c2 a0 a1 a2 rest) s).st =
        Except.error Err.state) := by
  rw [connect_revival_eq address s c0 c1 c2 a0 a1 a2 rest h]
  split_ifs <;>
    exact ⟨rfl, rfl, fun hc => by simp [GattClient.connected, GattClient.address, hc]⟩

/-- Witness for C10: slot 0 revives from a disconnected state; afterwards
`connected()` is still false and `address()` still raises the state error. -/
theorem c10_revival_frame_witness :
    GattClient.connected
      (GattClient.connect [1, 2, 3, 4, 5, 6]
        (revivalScript true false false [1, 2, 3, 4, 5, 6] [] [] []) ⟨0, false, [7], []⟩).st = false ∧
    GattClient.address
      (GattClient.connect [1, 2, 3, 4, 5, 6]
        (revivalScript true false false [1, 2, 3, 4, 5, 6] [] [] []) ⟨0, false, [7], []⟩).st =
      Except.error Err.state :=
  (c10_revival_frame [1, 2, 3, 4, 5, 6] ⟨0, false, [7], []⟩
    true false false [1, 2, 3, 4, 5, 6] [] [] [] (Or.inl ⟨rfl, rfl⟩)).2.2 rfl


/-- The slot-revival loop never touches `connected_` or `address_` and only
appends to `event_queue` (it may set `connection` on a match). -/
theorem connectLoop_frame (address : Buffer) (slots : List Nat) :
    ∀ (script : List Msg) (s : GattClient),
      (connectLoop address slots script s).st.connected_ = s.connected_ ∧
      (connectLoop address slots script s).st.address_ = s.address_ ∧
      ∃ l, (connectLoop address slots script s).st.event_queue = s.event_queue ++ l := by
  induction slots with
  | nil => intro script s; exact ⟨rfl, rfl, [], by simp [connectLoop]⟩
  | cons i is ih =>
    intro script s
    obtain ⟨f1, f2, f3, l1, f4⟩ := readResponse_frame matchGetStatusResp script s
    rcases hr1 : readResponse matchGetStatusResp script s with ⟨r1, script1, s1⟩
    rw [hr1] at f1 f2 f3 f4
    simp only at f1 f2 f3 f4
    cases r1 with
    | error e => simp [connectLoop, hr1, f2, f3, f4]
    | ok a =>
      obtain ⟨g1, g2, g3, l2, g4⟩ := readResponse_frame matchStatusEvent script1 s1
      rcases hr2 : readResponse matchStatusEvent script1 s1 with ⟨r2, script2, s2⟩
      rw [hr2] at g1 g2 g3 g4
      simp only at g1 g2 g3 g4
      cases r2 with
      | error e =>
        refine ⟨?_, ?_, l1 ++ l2, ?_⟩ <;>
          simp [connectLoop, hr1, hr2, f2, f3, f4, g2, g3, g4, List.append_assoc]
      | ok status =>
        by_cases hm : status.1 ∧ status.2 = address
        · refine ⟨?_, ?_, l1 ++ l2, ?_⟩ <;>
            simp [connectLoop, hr1, hr2, hm, f2, f3, f4, g2, g3, g4, List.append_assoc]
        · obtain ⟨e1, e2, l3, e3⟩ := ih script2 s2
          refine ⟨?_, ?_, l1 ++ (l2 ++ l3), ?_⟩ <;>
            simp [connectLoop, hr1, hr2, hm, f2, f3, f4, g2, g3, g4, e1, e2, e3, List.append_assoc]



/-- `writeAttribute` never changes `connection`, `connected_` or `address_`,
and only appends to `event_queue` (on success and on every failure path). -/
theorem writeAttribute_frame (atthandle : Nat) (payload : Buffer) (script : List Msg) (s : GattClient) :
    (GattClient.writeAttribute atthandle payload script s).st.connection = s.connection ∧
    (GattClient.writeAttribute atthandle payload script s).st.connected_ = s.connected_ ∧
    (GattClient.writeAttribute atthandle payload script s).st.address_ = s.address_ ∧
    ∃ l, (GattClient.writeAttribute atthandle payload script s).st.event_queue = s.event_queue ++ l := by
  obtain ⟨f1, f2, f3, l1, f4⟩ := readResponse_frame matchWriteResp script s
  rcases hr1 : readResponse matchWriteResp script s with ⟨r1, script1, s1⟩
  rw [hr1] at f1 f2 f3 f4
  simp only at f1 f2 f3 f4
  cases r1 with
  | error e => simp [GattClient.writeAttribute, hr1, f1, f2, f3, f4]
  | ok a =>
    obtain ⟨g1, g2, g3, l2, g4⟩ := readResponse_frame matchProcCompleted script1 s1
    rcases hr2 : readResponse matchProcCompleted script1 s1 with ⟨r2, script2, s2⟩
    rw [hr2] at g1 g2 g3 g4
    simp only at g1 g2 g3 g4
    cases r2 <;>
      exact ⟨by simp [GattClient.writeAttribute, hr1, hr2, f1, g1],
        by simp [GattClient.writeAttribute, hr1, hr2, f2, g2],
        by simp [GattClient.writeAttribute, hr1, hr2, f3, g3],
        l1 ++ l2, by simp [GattClient.writeAttribute, hr1, hr2, f4, g4, List.append_assoc]⟩

/-- A single-typed transport read never touches the driver state. -/
theorem readSingle_st {α : Type} (m : Msg → Option α) (script : List Msg) (s : GattClient) :
    (readSingle m script s).2.2 = s := by
  cases script with
  | nil => rfl
  | cons msg rest => cases hm : m msg <;> simp [readSingle, hm]

/-- The `characteristics` event loop never touches the driver state (it uses
plain two-handler reads, not the buffering `readResponse`). -/
theorem chrLoop_st (script : List Msg) :
    ∀ (s : GattClient) (chr : Characteristics), (chrLoop script s chr).2.2 = s := by
  induction script with
  | nil => intro s chr; rfl
  | cons msg rest ih =>
    intro s chr
    cases msg <;> simp [chrLoop, ih]
    · split <;> simp [ih]

/-- `characteristics` leaves the whole driver state untouched, on success
and on every failure path. -/
theorem characteristics_st (script : List Msg) (s : GattClient) :
    (GattClient.characteristics script s).st = s := by
  have h1 := readSingle_st matchFindInfoResp script s
  rcases hr1 : readSingle matchFindInfoResp script s with ⟨r1, script1, s1⟩
  rw [hr1] at h1
  simp only at h1
  subst h1
  cases r1 with
  | error e => simp [GattClient.characteristics, hr1]
  | ok a =>
    have h2 := chrLoop_st script1 s1 []
    rcases hr2 : chrLoop script1 s1 [] with ⟨r2, script2, s2⟩
    rw [hr2] at h2
    simp only at h2
    cases r2 <;> simp [GattClient.characteristics, hr1, hr2, h2]

/-- A failing `connect` leaves `connected_` and `address_` unchanged and only
appends to `event_queue`; the active slot `connection` is deliberately not
listed, since the fresh-connect path assigns it before the final status read
can still fail. -/
theorem connect_error_frame (address : Buffer) (script : List Msg) (s : GattClient) (e : Err)
    (herr : (GattClient.connect address script s).res = Except.error e) :
    (GattClient.connect address script s).st.connected_ = s.connected_ ∧
    (GattClient.connect address script s).st.address_ = s.address_ ∧
    ∃ l, (GattClient.connect address script s).st.event_queue = s.event_queue ++ l := by
  obtain ⟨f1, f2, l1, f3⟩ := connectLoop_frame address [0, 1, 2] script s
  rcases hr1 : connectLoop address [0, 1, 2] script s with ⟨r1, script1, s1, tr1⟩
  rw [hr1] at f1 f2 f3
  simp only at f1 f2 f3
  cases r1 with
  | error e1 => simp [GattClient.connect, hr1, f1, f2, f3]
  | ok revived =>
    cases revived with
    | true => rw [GattClient.connect, hr1] at herr; simp at herr
    | false =>
      obtain ⟨g1, g2, g3, l2, g4⟩ := readResponse_frame matchConnectResp script1 s1
      rcases hr2 : readResponse matchConnectResp script1 s1 with ⟨r2, script2, s2⟩
      rw [hr2] at g1 g2 g3 g4
      simp only at g1 g2 g3 g4
      cases r2 with
      | error e2 =>
        refine ⟨?_, ?_, l1 ++ l2, ?_⟩ <;>
          simp [GattClient.connect, hr1, hr2, f1, f2, f3, g2, g3, g4, List.append_assoc]
      | ok handle =>
        obtain ⟨k1, k2, k3, l3, k4⟩ :=
          readResponse_frame matchStatusEvent script2 { s2 with connection := handle }
        rcases hr3 : readResponse matchStatusEvent script2 { s2 with connection := handle }
          with ⟨r3, script3, s3⟩
        rw [hr3] at k1 k2 k3 k4
        simp only at k1 k2 k3 k4
        cases r3 with
        | error e3 =>
          refine ⟨?_, ?_, l1 ++ (l2 ++ l3), ?_⟩ <;>
          · rw [GattClient.connect, hr1]
            simp only [hr2, hr3]
            simp [f1, f2, f3, g2, g3, g4, k2, k3, k4, List.append_assoc]
        | ok st =>
          rw [GattClient.connect, hr1] at herr
          simp [hr2, hr3] at herr



/-- Claim C4 counterexample: `connect` is not atomic.  Starting from the
initial state (slot 0, disconnected), a transport in which the three slot
queries report disconnected and the direct-connect response assigns handle 2,
but which then fails before the connection-status event, makes `connect` fail
while leaving the active slot changed from 0 to 2. -/
theorem c4_partial_connect_counterexample :
    (GattClient.connect [1, 2, 3, 4, 5, 6]
      [.getStatusResp, .statusEvent false [], .getStatusResp, .statusEvent false [],
       .getStatusResp, .statusEvent false [], .connectResp 2] ⟨0, false, [], []⟩).res =
      Except.error Err.transport ∧
    (GattClient.connect [1, 2, 3, 4, 5, 6]
      [.getStatusResp, .statusEvent false [], .getStatusResp, .statusEvent false [],
       .getStatusResp, .statusEvent false [], .connectResp 2] ⟨0, false, [], []⟩).st.connection = 2 ∧
    (⟨0, false, [], []⟩ : GattClient).connection = 0 :=
  ⟨rfl, rfl, rfl⟩

/-- Claim C4 as amended: on a partway failure, `writeAttribute` and
`discoverCharacteristics` leave the connected flag, active slot and stored
peer address exactly as before (the event buffer may have grown, and
`characteristics` in fact changes nothing at all), and `connect` likewise
leaves the connected flag and stored peer address unchanged — but `connect`
may leave the active slot already updated to the handle from the
connect response, as the counterexample forces. -/
theorem c4_amended_atomicity :
    (∀ (atthandle : Nat) (payload : Buffer) (script : List Msg) (s : GattClient) (e : Err),
      (GattClient.writeAttribute atthandle payload script s).res = Except.error e →
      (GattClient.writeAttribute atthandle payload script s).st.connection = s.connection ∧
      (GattClient.writeAttribute atthandle payload script s).st.connected_ = s.connected_ ∧
      (GattClient.writeAttribute atthandle payload script s).st.address_ = s.address_ ∧
      ∃ l, (GattClient.writeAttribute atthandle payload script s).st.event_queue = s.event_queue ++ l) ∧
    (∀ (script : List Msg) (s : GattClient) (e : Err),
      (GattClient.characteristics script s).res = Except.error e →
      (GattClient.characteristics script s).st = s) ∧
    (∀ (address : Buffer) (script : List Msg) (s : GattClient) (e : Err),
      (GattClient.connect address script s).res = Except.error e →
      (GattClient.connect address script s).st.connected_ = s.connected_ ∧
      (GattClient.connect address script s).st.address_ = s.address_ ∧
      ∃ l, (GattClient.connect address script s).st.event_queue = s.event_queue ++ l) :=
  ⟨fun a p sc s _ _ => writeAttribute_frame a p sc s,
   fun sc s _ _ => characteristics_st sc s,
   fun ad sc s e he => connect_error_frame ad sc s e he⟩

/-- Witness for the amended C4 at concrete failing transports: an exhausted
script for `writeAttribute` and `characteristics`, and the counterexample
script for `connect`. -/
theorem c4_amended_atomicity_witness :
    (GattClient.writeAttribute 5 [1] [] ⟨0, false, [], []⟩).st.connected_ = false ∧
    (GattClient.characteristics [] ⟨0, false, [], []⟩).st = ⟨0, false, [], []⟩ ∧
    (GattClient.connect [1, 2, 3, 4, 5, 6]
      [.getStatusResp, .statusEvent false [], .getStatusResp, .statusEvent false [],
       .getStatusResp, .statusEvent false [], .connectResp 2] ⟨0, false, [], []⟩).st.connected_ = false :=
  ⟨(c4_amended_atomicity.1 5 [1] [] ⟨0, false, [], []⟩ Err.transport rfl).2.1,
   c4_amended_atomicity.2.1 [] ⟨0, false, [], []⟩ Err.transport rfl,
   (c4_amended_atomicity.2.2 [1, 2, 3, 4, 5, 6]
     [.getStatusResp, .statusEvent false [], .getStatusResp, .statusEvent false [],
      .getStatusResp, .statusEvent false [], .connectResp 2] ⟨0, false, [], []⟩ Err.transport rfl).1⟩


/-- The `retry:` loop of `readAttribute` walks over any run of mismatched
attribute-value events, buffering each one's handle and payload in arrival
order, and settles on the first event carrying the requested handle:
payload returned if the declared length matches, protocol error otherwise. -/
theorem readAttrLoop_skip (atthandle : Nat) (ms : List (Nat × Nat × Buffer)) :
    ∀ (s : GattClient), (∀ e ∈ ms, e.1 ≠ atthandle) →
      ∀ (len : Nat) (p : Buffer) (rest : List Msg),
      readAttrLoop atthandle (ms.map mkAttrEvent ++ .attrValueEvent atthandle len p :: rest) s =
        ((if len = p.length then Except.ok p else Except.error Err.protocol), rest,
          { s with event_queue := s.event_queue ++ ms.map (fun e => (e.1, e.2.2)) }) := by
  induction ms with
  | nil =>
    intro s _ len p rest
    by_cases hl : len = p.length <;> simp [readAttrLoop, mkAttrEvent, hl]
  | cons e es ih =>
    intro s hms len p rest
    have he : e.1 ≠ atthandle := hms e (by simp)
    have ihs := ih { s with event_queue := s.event_queue ++ [(e.1, e.2.2)] }
      (fun x hx => hms x (by simp [hx])) len p rest
    simp [readAttrLoop, mkAttrEvent, he, ihs, List.append_assoc]

/-- Claim C5: `readAttribute(h)` returns the payload of the first
attribute-value event whose handle equals `h` — whose size then equals that
event's declared length field — and when the declared length differs from
the actual payload size it raises the protocol error and returns no data,
regardless of any mismatched events buffered on the way. -/
theorem c5_read_attribute_length (atthandle len : Nat) (p : Buffer)
    (ms : List (Nat × Nat × Buffer)) (hms : ∀ e ∈ ms, e.1 ≠ atthandle)
    (rest : List Msg) (s : GattClient) :
    (len = p.length →
      (GattClient.readAttribute atthandle
        (.readByHandleResp :: ms.map mkAttrEvent ++ .attrValueEvent atthandle len p :: rest)
        s).res = Except.ok p) ∧
    (len ≠ p.length →
      (GattClient.readAttribute atthandle
        (.readByHandleResp :: ms.map mkAttrEvent ++ .attrValueEvent atthandle len p :: rest)
        s).res = Except.error Err.protocol) := by
  constructor
  · intro hl
    subst hl
    simp [GattClient.readAttribute, readResponse, matchReadByHandleResp,
      readAttrLoop_skip atthandle ms s hms]
  · intro hl
    simp [GattClient.readAttribute, readResponse, matchReadByHandleResp,
      readAttrLoop_skip atthandle ms s hms, hl]

/-- Witness for C5: after one mismatched event, the matching event for
handle 42 with declared length 2 and payload [1, 2] is returned; with
declared length 3 the same call raises the protocol error. -/
theorem c5_read_attribute_length_witness :
    (GattClient.readAttribute 42
      ([Msg.readByHandleResp] ++ [(48, 1, [9])].map mkAttrEvent ++
        [Msg.attrValueEvent 42 2 [1, 2]]) ⟨0, false, [], []⟩).res = Except.ok [1, 2] ∧
    (GattClient.readAttribute 42
      ([Msg.readByHandleResp] ++ [(48, 1, [9])].map mkAttrEvent ++
        [Msg.attrValueEvent 42 3 [1, 2]]) ⟨0, false, [], []⟩).res = Except.error Err.protocol :=
  ⟨(c5_read_attribute_length 42 2 [1, 2] [(48, 1, [9])] (by decide) [] ⟨0, false, [], []⟩).1 rfl,
   (c5_read_attribute_length 42 3 [1, 2] [(48, 1, [9])] (by decide) [] ⟨0, false, [], []⟩).2 (by decide)⟩



/-- Claim C2: when `readAttribute` buffers the mismatched events e1, e2, e3
(in that arrival order) before finding its match, a following `listen`
delivers exactly e1, e2, e3 in that order, each once, before the newly read
live event, and the event buffer is empty afterwards. -/
theorem c2_fifo_exactly_once (atthandle h1 l1 h2 l2 h3 l3 : Nat) (p1 p2 p3 : Buffer)
    (hne1 : h1 ≠ atthandle) (hne2 : h2 ≠ atthandle) (hne3 : h3 ≠ atthandle)
    (p : Buffer) (rest : List Msg) (s : GattClient) (hq : s.event_queue = [])
    (hl llen : Nat) (lp : Buffer) (rest2 : List Msg) :
    (GattClient.readAttribute atthandle
      (.readByHandleResp :: .attrValueEvent h1 l1 p1 :: .attrValueEvent h2 l2 p2 ::
        .attrValueEvent h3 l3 p3 :: .attrValueEvent atthandle p.length p :: rest) s).res =
      Except.ok p ∧
    (GattClient.readAttribute atthandle
      (.readByHandleResp :: .attrValueEvent h1 l1 p1 :: .attrValueEvent h2 l2 p2 ::
        .attrValueEvent h3 l3 p3 :: .attrValueEvent atthandle p.length p :: rest) s).st.event_queue =
      [(h1, p1), (h2, p2), (h3, p3)] ∧
    (GattClient.listen (.attrValueEvent hl llen lp :: rest2)
      (GattClient.readAttribute atthandle
        (.readByHandleResp :: .attrValueEvent h1 l1 p1 :: .attrValueEvent h2 l2 p2 ::
          .attrValueEvent h3 l3 p3 :: .attrValueEvent atthandle p.length p :: rest) s).st).delivered =
      [(h1, p1), (h2, p2), (h3, p3), (hl, lp)] ∧
    (GattClient.listen (.attrValueEvent hl llen lp :: rest2)
      (GattClient.readAttribute atthandle
        (.readByHandleResp :: .attrValueEvent h1 l1 p1 :: .attrValueEvent h2 l2 p2 ::
          .attrValueEvent h3 l3 p3 :: .attrValueEvent atthandle p.length p :: rest) s).st).st.event_queue =
      [] := by
  have key := readAttrLoop_skip atthandle [(h1, l1, p1), (h2, l2, p2), (h3, l3, p3)] s
    (by
      intro e he
      simp at he
      rcases he with he | he | he
      · subst he; exact hne1
      · subst he; exact hne2
      · subst he; exact hne3) p.length p rest
  simp [mkAttrEvent] at key
  refine ⟨?_, ?_, ?_, ?_⟩ <;>
    simp [GattClient.readAttribute, readResponse, matchReadByHandleResp, key, hq, GattClient.listen]

/-- Witness for C2, the spec section 8 scenario extended to three buffered
events: reading handle 42 buffers the events for handles 48, 49, 50; `listen`
then delivers them in order and the live event for handle 99 last. -/
theorem c2_fifo_exactly_once_witness :
    (GattClient.readAttribute 42
      [Msg.readByHandleResp, .attrValueEvent 48 1 [9], .attrValueEvent 49 5 [8],
        .attrValueEvent 50 0 [7], .attrValueEvent 42 2 [1, 2]] ⟨0, false, [], []⟩).res =
      Except.ok [1, 2] ∧
    (GattClient.readAttribute 42
      [Msg.readByHandleResp, .attrValueEvent 48 1 [9], .attrValueEvent 49 5 [8],
        .attrValueEvent 50 0 [7], .attrValueEvent 42 2 [1, 2]] ⟨0, false, [], []⟩).st.event_queue =
      [(48, [9]), (49, [8]), (50, [7])] ∧
    (GattClient.listen [.attrValueEvent 99 4 [5]]
      (GattClient.readAttribute 42
        [Msg.readByHandleResp, .attrValueEvent 48 1 [9], .attrValueEvent 49 5 [8],
          .attrValueEvent 50 0 [7], .attrValueEvent 42 2 [1, 2]] ⟨0, false, [], []⟩).st).delivered =
      [(48, [9]), (49, [8]), (50, [7]), (99, [5])] ∧
    (GattClient.listen [.attrValueEvent 99 4 [5]]
      (GattClient.readAttribute 42
        [Msg.readByHandleResp, .attrValueEvent 48 1 [9], .attrValueEvent 49 5 [8],
          .attrValueEvent 50 0 [7], .attrValueEvent 42 2 [1, 2]] ⟨0, false, [], []⟩).st).st.event_queue =
      [] :=
  c2_fifo_exactly_once 42 48 1 49 5 50 0 [9] [8] [7] (by decide) (by decide) (by decide)
    [1, 2] [] ⟨0, false, [], []⟩ rfl 99 4 [5] []


/-- Claim C6: `disconnectAll` writes exactly the three disconnect commands
for slots 0, 1, 2 in order, whatever the initial connection state; it
consumes the whole script, whose single disconnected event exists exactly
when the driver was connected (so that event is awaited only for the active
slot), and it ends with the connected flag cleared. -/
theorem c6_disconnect_all (s : GattClient) (h3 : s.connection < 3) :
    (GattClient.disconnectAll (disconnectAllScript s) s).res = Except.ok () ∧
    (GattClient.disconnectAll (disconnectAllScript s) s).trace =
      [Cmd.connectionDisconnect 0, Cmd.connectionDisconnect 1, Cmd.connectionDisconnect 2] ∧
    (GattClient.disconnectAll (disconnectAllScript s) s).script = [] ∧
    (GattClient.disconnectAll (disconnectAllScript s) s).st.connected_ = false ∧
    List.count Msg.disconnectedEvent (disconnectAllScript s) = (if s.connected_ then 1 else 0) := by
  rcases s with ⟨conn, b, addr, q⟩
  cases b
  · simp [GattClient.disconnectAll, disconnectAllLoop, GattClient.disconnect,
      readResponse, matchDisconnectResp, matchDisconnectedEvent, disconnectAllScript, dcScript,
      List.count]
  · simp only at h3
    interval_cases conn <;>
      simp [GattClient.disconnectAll, disconnectAllLoop, GattClient.disconnect,
        readResponse, matchDisconnectResp, matchDisconnectedEvent, disconnectAllScript, dcScript,
        List.count]

/-- Witness for C6 from a state connected on slot 1. -/
theorem c6_disconnect_all_witness :
    (GattClient.disconnectAll (disconnectAllScript ⟨1, true, [1], [(7, [9])]⟩)
      ⟨1, true, [1], [(7, [9])]⟩).res = Except.ok () ∧
    (GattClient.disconnectAll (disconnectAllScript ⟨1, true, [1], [(7, [9])]⟩)
      ⟨1, true, [1], [(7, [9])]⟩).trace =
      [Cmd.connectionDisconnect 0, Cmd.connectionDisconnect 1, Cmd.connectionDisconnect 2] ∧
    (GattClient.disconnectAll (disconnectAllScript ⟨1, true, [1], [(7, [9])]⟩)
      ⟨1, true, [1], [(7, [9])]⟩).st.connected_ = false ∧
    List.count Msg.disconnectedEvent (disconnectAllScript ⟨1, true, [1], [(7, [9])]⟩) = 1 := by
  have h := c6_disconnect_all ⟨1, true, [1], [(7, [9])]⟩ (by decide)
  exact ⟨h.1, h.2.1, h.2.2.2.1, by simpa using h.2.2.2.2⟩

/-- A `discover` event loop that ends normally never touches the driver
state, and its callback deliveries are a run of accepted events followed by
exactly one declined event — nothing is delivered after the callback first
returns false. -/
theorem discoverLoop_ok (cb : Int → Buffer → Buffer → Bool) (script : List Msg) :
    ∀ (s : GattClient) (sc : List Msg) (st : GattClient) (dl : List (Int × Buffer × Buffer)),
      discoverLoop cb script s = (Except.ok (), sc, st, dl) →
      st = s ∧ ∃ l x, dl = l ++ [x] ∧ (∀ y ∈ l, cb y.1 y.2.1 y.2.2 = true) ∧
        cb x.1 x.2.1 x.2.2 = false := by
  induction script with
  | nil => intro s sc st dl h; simp [discoverLoop] at h
  | cons msg rest ih =>
    intro s sc st dl h
    cases msg
    case discoverResp => exact ih s sc st dl (by simpa [discoverLoop] using h)
    case scanResp rssi sender data =>
      by_cases hcb : cb rssi sender data
      · rcases hr : discoverLoop cb rest s with ⟨r1, rsc, rst, rdl⟩
        simp [discoverLoop, hcb, hr] at h
        obtain ⟨h1, h2, h3, h4⟩ := h
        obtain ⟨hst, l, x, hdl, hl, hx⟩ := ih s rsc rst rdl (by rw [hr, h1])
        subst h2; subst h3; subst hdl
        refine ⟨hst, (rssi, sender, data) :: l, x, by simp [← h4], ?_, hx⟩
        intro y hy
        rcases List.mem_cons.mp hy with hy | hy
        · subst hy; exact hcb
        · exact hl y hy
      · simp [discoverLoop, hcb] at h
        obtain ⟨h1, h2, h3⟩ := h
        subst h2; subst h3
        exact ⟨rfl, [], (rssi, sender, data), rfl, by simp, by simp [hcb]⟩
    all_goals simp [discoverLoop] at h

/-- Claim C7: when `discover` returns successfully, the callback deliveries
end at the first event the callback declines (no further callbacks after it
returns false), and the trace writes the end-procedure command exactly once,
after the discover command and before awaiting its acknowledgment. -/
theorem c7_discover_stops_and_ends (cb : Int → Buffer → Buffer → Bool) (script : List Msg)
    (s : GattClient) (hok : (GattClient.discover cb script s).res = Except.ok ()) :
    (GattClient.discover cb script s).trace = [Cmd.gapDiscover, Cmd.gapEndProcedure] ∧
    ∃ l x, (GattClient.discover cb script s).delivered = l ++ [x] ∧
      (∀ y ∈ l, cb y.1 y.2.1 y.2.2 = true) ∧ cb x.1 x.2.1 x.2.2 = false := by
  rcases hr : discoverLoop cb script s with ⟨r1, sc1, st1, dl⟩
  cases r1 with
  | error e => simp [GattClient.discover, hr] at hok
  | ok u =>
    cases u
    rcases hs : readSingle matchEndProcResp sc1 st1 with ⟨r2, sc2, st2⟩
    cases r2 with
    | error e => simp [GattClient.discover, hr, hs] at hok
    | ok u2 =>
      obtain ⟨hst, l, x, hdl, hl, hx⟩ := discoverLoop_ok cb script s sc1 st1 dl hr
      exact ⟨by simp [GattClient.discover, hr, hs],
        l, x, by simp [GattClient.discover, hr, hs, hdl], hl, hx⟩

/-- Witness for C7: a callback accepting nonempty advertising payloads stops
at the second scan response; the command trace is discover then
end-procedure. -/
theorem c7_discover_stops_and_ends_witness :
    (GattClient.discover (fun _ _ data => !data.isEmpty)
      [.discoverResp, .scanResp 5 [1, 2, 3, 4, 5, 6] [1], .scanResp 3 [6, 5, 4, 3, 2, 1] [],
        .endProcResp] ⟨0, false, [], []⟩).res = Except.ok () ∧
    (GattClient.discover (fun _ _ data => !data.isEmpty)
      [.discoverResp, .scanResp 5 [1, 2, 3, 4, 5, 6] [1], .scanResp 3 [6, 5, 4, 3, 2, 1] [],
        .endProcResp] ⟨0, false, [], []⟩).trace = [Cmd.gapDiscover, Cmd.gapEndProcedure] :=
  ⟨rfl,
   (c7_discover_stops_and_ends (fun _ _ data => !data.isEmpty)
     [.discoverResp, .scanResp 5 [1, 2, 3, 4, 5, 6] [1], .scanResp 3 [6, 5, 4, 3, 2, 1] [],
       .endProcResp] ⟨0, false, [], []⟩ rfl).1⟩



/-- Lookup after a map insert: the inserted key now maps to the new value
and every other key is unchanged. -/
theorem mapLookup_insert (k : Buffer) (v : Nat) (u : Buffer) :
    ∀ m : Characteristics,
      mapLookup (mapInsert m k v) u = if k = u then some v else mapLookup m u := by
  intro m
  induction m with
  | nil => simp [mapInsert, mapLookup]
  | cons kv rest ih =>
    rcases kv with ⟨k1, v1⟩
    by_cases h1 : k1 = k
    · subst h1
      by_cases hu : k1 = u <;> simp [mapInsert, mapLookup, hu]
    · by_cases hu : k1 = u
      · subst hu
        have hk : ¬ k = k1 := fun hh => h1 hh.symm
        simp [mapInsert, mapLookup, h1, hk]
      · simp [mapInsert, mapLookup, h1, hu, ih]

/-- Folding information-found events into the map is last-write-wins: a
lookup returns the handle of the last event carrying that UUID, if any. -/
theorem foldl_insertInfo_lookup (u : Buffer) :
    ∀ (events : List (Nat × Nat × Buffer)) (acc : Characteristics),
      mapLookup (events.foldl insertInfo acc) u =
        (List.find? (fun e => decide (e.2.2 = u)) events.reverse).elim
          (mapLookup acc u) (fun e => some e.1) := by
  intro events
  induction events with
  | nil => intro acc; simp
  | cons e es ih =>
    intro acc
    rw [List.foldl_cons, ih (insertInfo acc e), List.reverse_cons, List.find?_append]
    cases hf : List.find? (fun e => decide (e.2.2 = u)) es.reverse with
    | some x => simp [hf]
    | none =>
      by_cases he : e.2.2 = u <;>
        simp [hf, insertInfo, mapLookup_insert, List.find?, he]

/-- The `characteristics` event loop over valid information-found events
folds them into the accumulator and returns it at the procedure-completed
event, leaving state and the rest of the script alone. -/
theorem chrLoop_run (events : List (Nat × Nat × Buffer)) :
    ∀ (acc : Characteristics) (rest : List Msg) (s : GattClient),
      (∀ e ∈ events, e.2.1 = e.2.2.length) →
      chrLoop (events.map mkInfoFound ++ .procCompleted :: rest) s acc =
        (Except.ok (events.foldl insertInfo acc), rest, s) := by
  induction events with
  | nil => intro acc rest s _; simp [chrLoop]
  | cons e es ih =>
    intro acc rest s hval
    have he : e.2.1 = e.2.2.length := hval e (by simp)
    simp [chrLoop, mkInfoFound, he, insertInfo,
      ih (mapInsert acc e.2.2 e.1) rest s (fun x hx => hval x (by simp [hx]))]

/-- The `characteristics` event loop raises the protocol error at the first
information-found event whose declared length disagrees with its UUID
size. -/
theorem chrLoop_err (good : List (Nat × Nat × Buffer)) :
    ∀ (acc : Characteristics) (bh bl : Nat) (bu : Buffer) (tail : List Msg) (s : GattClient),
      (∀ e ∈ good, e.2.1 = e.2.2.length) → bl ≠ bu.length →
      (chrLoop (good.map mkInfoFound ++ .infoFound bh bl bu :: tail) s acc).1 =
        Except.error Err.protocol := by
  induction good with
  | nil => intro acc bh bl bu tail s _ hbad; simp [chrLoop, hbad]
  | cons e es ih =>
    intro acc bh bl bu tail s hval hbad
    have he : e.2.1 = e.2.2.length := hval e (by simp)
    simp [chrLoop, mkInfoFound, he,
      ih (mapInsert acc e.2.2 e.1) bh bl bu tail s (fun x hx => hval x (by simp [hx])) hbad]

/-- Claim C9: `characteristics` raises the protocol error for an
information-found event whose declared uuidLength differs from the UUID byte
size; otherwise it accumulates UUID-to-handle insertions with last-write-wins
on a recurring UUID and returns the mapping at the procedure-completed
event. -/
theorem c9_characteristics_mapping :
    (∀ (events : List (Nat × Nat × Buffer)) (rest : List Msg) (s : GattClient),
      (∀ e ∈ events, e.2.1 = e.2.2.length) →
      (GattClient.characteristics (chrScript events rest) s).res =
        Except.ok (events.foldl insertInfo []) ∧
      ∀ u, mapLookup (events.foldl insertInfo []) u =
        Option.map (fun e => e.1) (List.find? (fun e => decide (e.2.2 = u)) events.reverse)) ∧
    (∀ (good : List (Nat × Nat × Buffer)) (bad : Nat × Nat × Buffer)
      (more : List (Nat × Nat × Buffer)) (rest : List Msg) (s : GattClient),
      (∀ e ∈ good, e.2.1 = e.2.2.length) → bad.2.1 ≠ bad.2.2.length →
      (GattClient.characteristics (chrScript (good ++ bad :: more) rest) s).res =
        Except.error Err.protocol) := by
  constructor
  · intro events rest s hval
    constructor
    · simp [GattClient.characteristics, chrScript, readSingle, matchFindInfoResp,
        chrLoop_run events [] rest s hval]
    · intro u
      rw [foldl_insertInfo_lookup u events []]
      cases hf : List.find? (fun e => decide (e.2.2 = u)) events.reverse <;>
        simp [hf, mapLookup]
  · intro good bad more rest s hval hbad
    have hx := chrLoop_err good []
      bad.1 bad.2.1 bad.2.2 (more.map mkInfoFound ++ .procCompleted :: rest) s hval hbad
    rcases hr : chrLoop
        (good.map mkInfoFound ++
          .infoFound bad.1 bad.2.1 bad.2.2 :: (more.map mkInfoFound ++ .procCompleted :: rest))
        s [] with ⟨r1, sc1, s1⟩
    rw [hr] at hx
    simp only at hx
    subst hx
    simp [GattClient.characteristics, chrScript, readSingle, matchFindInfoResp, mkInfoFound, hr]

/-- Witness for C9: two events for the same UUID 0xAB with handles 5 then 7
yield the single mapping entry with handle 7 (last write wins). -/
theorem c9_characteristics_mapping_witness :
    (GattClient.characteristics (chrScript [(5, 1, [171]), (7, 1, [171])] [])
      ⟨0, false, [], []⟩).res = Except.ok [([171], 7)] ∧
    mapLookup [([171], 7)] [171] = some 7 := by
  have h := c9_characteristics_mapping.1 [(5, 1, [171]), (7, 1, [171])] [] ⟨0, false, [], []⟩
    (by decide)
  exact ⟨h.1, by simpa using h.2 [171]⟩


/-- Formatting then reading back a single hex digit is the identity. -/
theorem hexVal_hexChar (d : Nat) (hd : d < 16) : hexVal (hexChar d) = some d := by
  interval_cases d <;> decide

/-- Hex digit characters are not stream whitespace. -/
theorem isWs_hexChar (d : Nat) (hd : d < 16) : isWs (hexChar d) = false := by
  interval_cases d <;> decide

/-- The `setw` fill character is stream whitespace. -/
theorem isWs_space : isWs ' ' = true := rfl

/-- The separator is not stream whitespace. -/
theorem isWs_colon : isWs ':' = false := rfl

/-- The separator is not a hex digit, so greedy extraction stops at it. -/
theorem hexVal_colon : hexVal ':' = none := rfl

/-- The greedy digit run stops at end of input or at a separator. -/
theorem readHexDigits_stop (acc : Nat) (rest : List Char)
    (hr : rest = [] ∨ ∃ tl, rest = ':' :: tl) : readHexDigits rest acc = (acc, rest) := by
  rcases hr with rfl | ⟨tl, rfl⟩
  · rfl
  · rfl

/-- Extracting a hex value from one formatted byte (space-padded or
two-digit) followed by a separator or end of input yields the byte back. -/
theorem readHexNat_formatByte (b : Nat) (hb : b < 256) (rest : List Char)
    (hr : rest = [] ∨ ∃ tl, rest = ':' :: tl) :
    readHexNat (formatByte b ++ rest) = some (b, rest) := by
  by_cases h16 : b < 16
  · simp [formatByte, h16, readHexNat, List.dropWhile_cons, isWs_space, isWs_hexChar b h16,
      hexVal_hexChar b h16, readHexDigits_stop b rest hr]
  · have hd : b / 16 < 16 := by omega
    have hm : b % 16 < 16 := Nat.mod_lt _ (by norm_num)
    simp [formatByte, h16, readHexNat, List.dropWhile_cons, isWs_hexChar _ hd,
      hexVal_hexChar _ hd, readHexDigits, hexVal_hexChar _ hm,
      readHexDigits_stop _ rest hr]
    omega

/-- One unfolding step of the parse loop. -/
theorem parseLoop_succ (n : Nat) (cs : List Char) :
    parseLoop (n + 1) cs =
      (match readHexNat cs with
      | none => Except.error Err.format
      | some vr =>
        match readCharTok vr.2 with
        | none => Except.error Err.format
        | some dr =>
          if dr.1 ≠ ':' then Except.error Err.format
          else
            match parseLoop n dr.2 with
            | .error e => Except.error e
            | .ok rest => Except.ok (vr.1 % 256 :: rest)) := rfl

/-- Running the parse loop over the colon-intercalated formatted groups of
any nonempty byte list fails with the format error: every group and its
following separator parse fine until the last group, after which the
delimiter extraction finds end of input. -/
theorem parseLoop_formatted :
    ∀ (bs : List Nat), (∀ b ∈ bs, b < 256) → bs ≠ [] →
      parseLoop bs.length (List.intercalate [':'] (bs.map formatByte)) =
        Except.error Err.format := by
  intro bs
  induction bs with
  | nil => intro _ hne; exact absurd rfl hne
  | cons b bs ih =>
    intro hval _
    cases bs with
    | nil =>
      have hb := hval b (by simp)
      have h1 := readHexNat_formatByte b hb [] (Or.inl rfl)
      simp only [List.append_nil] at h1
      simp [List.intercalate, parseLoop, h1, readCharTok]
    | cons b2 bs2 =>
      have hb := hval b (by simp)
      have h1 := readHexNat_formatByte b hb
        (':' :: List.intercalate [':'] ((b2 :: bs2).map formatByte)) (Or.inr ⟨_, rfl⟩)
      have ih2 := ih (fun x hx => hval x (by simp [hx])) (by simp)
      simp only [List.length_cons] at ih2 ⊢
      rw [parseLoop_succ]
      simp [List.intercalate] at h1 ih2 ⊢
      simp [h1, readCharTok, List.dropWhile_cons, isWs_colon, ih2]

/-- Claim C1, in full generality: for every valid 6-byte address, parsing
the canonical text produced by formatting raises the format error instead of
round-tripping, because the parse loop demands a sixth separator that
`print_address` never emits. -/
theorem c1_parse_format_fails_all (a : Buffer) (ha : a.length = 6) (hb : ∀ b ∈ a, b < 256) :
    connectParseAddress (print_address a) = Except.error Err.format := by
  have h6 : a.reverse.length = 6 := by simp [ha]
  have hrb : ∀ b ∈ a.reverse, b < 256 := fun b hbm => hb b (List.mem_reverse.mp hbm)
  have hne : a.reverse ≠ [] := by
    intro hcon
    rw [hcon] at h6
    simp at h6
  have key := parseLoop_formatted a.reverse hrb hne
  rw [h6] at key
  simp [List.map_reverse] at key
  simp [connectParseAddress, print_address, List.map_reverse, key]

/-- Witness for the universal C1 failure theorem at the concrete address
`[0x66, 0x55, 0x44, 0x33, 0x22, 0x11]`. -/
theorem c1_parse_format_fails_all_witness :
    List.length [102, 85, 68, 51, 34, 17] = 6 ∧
    connectParseAddress (print_address [102, 85, 68, 51, 34, 17]) = Except.error Err.format :=
  ⟨rfl, c1_parse_format_fails_all [102, 85, 68, 51, 34, 17] rfl (by decide)⟩


end myolinux
